import Mathlib

/-!
# Verification of the EPD5in65f e-paper panel driver (`src/epd5in65f/mod.rs`)

The driver is straight-line code: every public operation is a fixed sequence of
bus transactions (command writes, data writes, repeated-byte fills), hardware
resets, delays and busy-waits, with the `?` operator aborting the rest of the
sequence at the first failing bus write.

We shallowly embed each operation as the `List Event` of transactions it
attempts in order, translated statement-by-statement from the Rust source.
A separate interpreter `exec` gives the runtime semantics in the presence of a
bus that fails at a chosen write: it emits events in order and stops right
after the first failing bus write, returning the bus error unchanged, which is
exactly the semantics of `?` on each fallible call in the source.
-/

set_option autoImplicit false

namespace EPD5in65f

/-- The panel command opcodes used by `epd5in65f` (the enum lives in
`epd5in65f/command.rs`; the opcodes are referenced symbolically by the driver,
so we model the closed enumeration without their byte values). -/
inductive Command where
  | PANEL_SETTING
  | POWER_SETTING
  | POWER_OFF_SEQUENCE_SETTING
  | POWER_ON
  | POWER_OFF
  | BOOSTER_SOFT_START
  | DEEP_SLEEP
  | DATA_START_TRANSMISSION_1
  | DISPLAY_REFRESH
  | PLL_CONTROL
  | TEMPERATURE_SENSOR_COMMAND
  | VCOM_AND_DATA_INTERVAL_SETTING
  | TCON_SETTING
  | TCON_RESOLUTION
  | FLASH_MODE
  deriving DecidableEq, Repr

/-- Modelled from the spec: the color-space enumeration (out of scope of the
source file, `color.rs`): eight logical colors, each with a 4-bit color code;
two adjacent pixels' codes are packed into one transport byte,
most-significant nibble first, by the pure packing function `colors_byte`. -/
inductive OctColor where
  | Black
  | White
  | Green
  | Blue
  | Red
  | Yellow
  | Orange
  | HiZ
  deriving DecidableEq, Repr

/-- Modelled from the spec: the 4-bit color code of each logical color. -/
def OctColor.code : OctColor → Nat
  | .Black => 0x00
  | .White => 0x01
  | .Green => 0x02
  | .Blue => 0x03
  | .Red => 0x04
  | .Yellow => 0x05
  | .Orange => 0x06
  | .HiZ => 0x07

/-- Modelled from the spec: the pure packing function taking two logical
colors and producing one transport byte, most-significant nibble first. -/
def OctColor.colors_byte (a b : OctColor) : Nat :=
  (a.code <<< 4) ||| b.code

/-- One bus-visible action of the transport interface.  `cmdEv`, `dataEv` and
`repeatEv` are the fallible bus-write transactions; `resetEv`, `delayEv` and
`waitEv` touch only control lines or the clock and cannot fail. -/
inductive Event where
  /-- Hardware reset via the reset line (`interface.reset(delay, ms)`). -/
  | resetEv (ms : Nat)
  /-- A command transaction: one opcode byte with command-select asserted. -/
  | cmdEv (c : Command)
  /-- A data transaction: the given bytes with data-select asserted. -/
  | dataEv (bytes : List Nat)
  /-- A repeated-byte data transaction (`interface.data_x_times(value, count)`):
  `value` emitted `count` times as one data transaction. -/
  | repeatEv (value count : Nat)
  /-- A pure delay (`delay.delay_ms(ms)`). -/
  | delayEv (ms : Nat)
  /-- A blocking busy-wait (`interface.wait_until_idle(is_busy_low)`). -/
  | waitEv (is_busy_low : Bool)
  deriving DecidableEq, Repr

/-- The transport byte stream carried by one event: a data transaction carries
its bytes, a repeated-byte transaction carries its byte `count` times, and
command/control events carry no data bytes. -/
def Event.dataBytes : Event → List Nat
  | .dataEv bytes => bytes
  | .repeatEv value count => List.replicate count value
  | _ => []

/-- Whether the event is a fallible bus-write transaction. -/
def Event.isBusWrite : Event → Bool
  | .cmdEv _ => true
  | .dataEv _ => true
  | .repeatEv _ _ => true
  | _ => false

/-- Whether the event is a busy-wait. -/
def Event.isWait : Event → Bool
  | .waitEv _ => true
  | _ => false

namespace DisplayInterface

/-- Modelled from the spec: `reset(hold_ms)` toggles the reset line with fixed
delays; side effect only, no bus write. -/
def reset (ms : Nat) : List Event := [Event.resetEv ms]

/-- Modelled from the spec: `write_command(opcode)` is one command transaction
over the bus; a failing byte-write is propagated verbatim. -/
def cmd (c : Command) : List Event := [Event.cmdEv c]

/-- Modelled from the spec: `write_data(bytes)` is one data transaction over
the bus; same failure semantics. -/
def data (bytes : List Nat) : List Event := [Event.dataEv bytes]

/-- Modelled from the spec: `write_command_with_data(opcode, bytes)` is the
command transaction immediately followed by the data transaction. -/
def cmd_with_data (c : Command) (bytes : List Nat) : List Event :=
  cmd c ++ data bytes

/-- Modelled from the spec: `repeat_byte(value, count)` emits `value` `count`
times as a data transaction. -/
def data_x_times (value count : Nat) : List Event := [Event.repeatEv value count]

/-- Modelled from the spec: `wait_until_ready(expect_busy_level)` blocks,
polling the busy line until it no longer reports the busy level. -/
def wait_until_idle (is_busy_low : Bool) : List Event := [Event.waitEv is_busy_low]

end DisplayInterface

/-- Width of the display. -/
def WIDTH : Nat := 600

/-- Height of the display. -/
def HEIGHT : Nat := 448

/-- Default background color (`DEFAULT_BACKGROUND_COLOR` in the source). -/
def DEFAULT_BACKGROUND_COLOR : OctColor := OctColor.White

/-- `IS_BUSY_LOW` constant of the source. -/
def IS_BUSY_LOW : Bool := true

/-- The driver struct: the transport interface holds no modelled state, so
only the mutable background color field remains. -/
structure EPD where
  color : OctColor
  deriving DecidableEq, Repr

/-- `fn command`: forwards to `interface.cmd`. -/
def command (c : Command) : List Event := DisplayInterface.cmd c

/-- `fn send_data`: forwards to `interface.data`. -/
def send_data (bytes : List Nat) : List Event := DisplayInterface.data bytes

/-- `fn cmd_with_data`: forwards to `interface.cmd_with_data`. -/
def cmd_with_data (c : Command) (bytes : List Nat) : List Event :=
  DisplayInterface.cmd_with_data c bytes

/-- `fn wait_busy_high`: `interface.wait_until_idle(true)`. -/
def wait_busy_high : List Event := DisplayInterface.wait_until_idle true

/-- `fn wait_busy_low`: `interface.wait_until_idle(false)`. -/
def wait_busy_low : List Event := DisplayInterface.wait_until_idle false

/-- `fn send_resolution`: the resolution command followed by four one-byte
data transactions, width then height, most-significant byte first (`as u8`
truncates to the low byte, modelled as `% 256`). -/
def send_resolution : List Event :=
  let w := WIDTH
  let h := HEIGHT
  command Command.TCON_RESOLUTION
    ++ send_data [(w >>> 8) % 256]
    ++ send_data [w % 256]
    ++ send_data [(h >>> 8) % 256]
    ++ send_data [h % 256]

/-- `fn init` (trait `InternalWiAdditions`): hardware reset, the fixed
configuration commands in source order, resolution, flash mode, a 100 ms
delay, then the second VCOM-and-data-interval command. -/
def init (_epd : EPD) : List Event :=
  DisplayInterface.reset 2
    ++ cmd_with_data Command.PANEL_SETTING [0xEF, 0x08]
    ++ cmd_with_data Command.POWER_SETTING [0x37, 0x00, 0x23, 0x23]
    ++ cmd_with_data Command.POWER_OFF_SEQUENCE_SETTING [0x00]
    ++ cmd_with_data Command.BOOSTER_SOFT_START [0xC7, 0xC7, 0x1D]
    ++ cmd_with_data Command.PLL_CONTROL [0x3C]
    ++ cmd_with_data Command.TEMPERATURE_SENSOR_COMMAND [0x00]
    ++ cmd_with_data Command.VCOM_AND_DATA_INTERVAL_SETTING [0x37]
    ++ cmd_with_data Command.TCON_SETTING [0x22]
    ++ send_resolution
    ++ cmd_with_data Command.FLASH_MODE [0xAA]
    ++ [Event.delayEv 100]
    ++ cmd_with_data Command.VCOM_AND_DATA_INTERVAL_SETTING [0x37]

/-- `fn new`: builds the driver with the default background color and runs
`init` on it, returning the instance together with the transactions of the
constructor. -/
def new : EPD × List Event :=
  let color := DEFAULT_BACKGROUND_COLOR
  let epd : EPD := { color := color }
  (epd, init epd)

/-- `fn wake_up`: `self.init(spi, delay)`. -/
def wake_up (epd : EPD) : List Event := init epd

/-- `fn sleep`: the deep-sleep command with its single parameter byte. -/
def sleep (_epd : EPD) : List Event :=
  cmd_with_data Command.DEEP_SLEEP [0xA5]

/-- `fn update_frame`: busy-wait, resolution, then the caller's buffer as one
data transaction tagged `DATA_START_TRANSMISSION_1`. -/
def update_frame (_epd : EPD) (buffer : List Nat) : List Event :=
  wait_busy_high
    ++ send_resolution
    ++ cmd_with_data Command.DATA_START_TRANSMISSION_1 buffer

/-- `fn display_frame`: busy-wait, power on, busy-wait, refresh, busy-wait,
power off, then the busy-wait of the opposite polarity. -/
def display_frame (_epd : EPD) : List Event :=
  wait_busy_high
    ++ command Command.POWER_ON
    ++ wait_busy_high
    ++ command Command.DISPLAY_REFRESH
    ++ wait_busy_high
    ++ command Command.POWER_OFF
    ++ wait_busy_low

/-- `fn update_and_display_frame`: `update_frame` then `display_frame`. -/
def update_and_display_frame (epd : EPD) (buffer : List Nat) : List Event :=
  update_frame epd buffer ++ display_frame epd

/-- `fn clear_frame`: fill byte packed from the background color twice,
busy-wait, resolution, start-transmission command, the fill byte repeated
`WIDTH * HEIGHT / 2` times, then `display_frame`. -/
def clear_frame (epd : EPD) : List Event :=
  let bg := OctColor.colors_byte epd.color epd.color
  wait_busy_high
    ++ send_resolution
    ++ command Command.DATA_START_TRANSMISSION_1
    ++ DisplayInterface.data_x_times bg (WIDTH * HEIGHT / 2)
    ++ display_frame epd

/-- `fn set_background_color`: pure state mutation, no bus traffic. -/
def set_background_color (epd : EPD) (color : OctColor) : EPD :=
  { epd with color := color }

/-- `fn background_color`: pure read of the stored color. -/
def background_color (epd : EPD) : OctColor := epd.color

/-- Result of calling an operation that may be unimplemented on this panel
variant: `unimplemented!()` panics before any bus traffic, `completes` carries
the transactions of a normal run. -/
inductive OpResult where
  | notImplemented
  | completes (events : List Event)
  deriving DecidableEq, Repr

/-- Modelled from the spec: the refresh waveform lookup-table selector of the
driver traits (`traits.rs`, out of scope of the source file). -/
inductive RefreshLUT where
  | FULL
  | QUICK
  deriving DecidableEq, Repr

/-- `fn update_partial_frame`: `unimplemented!()`, unconditionally. -/
def update_partial_frame (_epd : EPD) (_buffer : List Nat)
    (_x _y _width _height : Nat) : OpResult :=
  OpResult.notImplemented

/-- `fn set_lut`: `unimplemented!()`, unconditionally. -/
def set_lut (_epd : EPD) (_refresh_rate : Option RefreshLUT) : OpResult :=
  OpResult.notImplemented

/-! ## Runtime semantics with an injectable bus failure

`exec failAt e prog` runs the transactions of `prog` in order against a bus
whose `failAt`-th bus write (0-indexed, counting only fallible bus writes)
fails with error `e`; `failAt = none` is a healthy bus.  It returns the events
attempted, in order, and the result the Rust caller sees: the `?` operator
aborts the sequence right after the first failing write and the driver returns
the transport error unchanged. -/

/-- Prepend an event to the emitted trace of a partial run. -/
def consFst {ε : Type} (ev : Event) (p : List Event × Except ε Unit) :
    List Event × Except ε Unit :=
  (ev :: p.1, p.2)

/-- Run the transactions of `prog` against a bus failing at write `failAt`. -/
def exec {ε : Type} (failAt : Option Nat) (e : ε) :
    List Event → List Event × Except ε Unit
  | [] => ([], Except.ok ())
  | ev :: rest =>
    if ev.isBusWrite then
      match failAt with
      | some 0 => ([ev], Except.error e)
      | some (Nat.succ k) => consFst ev (exec (some k) e rest)
      | none => consFst ev (exec none e rest)
    else
      consFst ev (exec failAt e rest)

/-- Number of fallible bus writes in a transaction sequence. -/
def countWrites (prog : List Event) : Nat :=
  prog.countP (fun ev => ev.isBusWrite)

/-- The prefix of `prog` through its `n`-th bus write inclusive (1-indexed):
exactly the events attempted when the `n`-th write is the first to fail. -/
def writeTrunc : Nat → List Event → List Event
  | _, [] => []
  | n, ev :: rest =>
    if ev.isBusWrite then
      match n with
      | 0 => []
      | 1 => [ev]
      | Nat.succ (Nat.succ k) => ev :: writeTrunc (Nat.succ k) rest
    else
      match n with
      | 0 => []
      | Nat.succ k => ev :: writeTrunc (Nat.succ k) rest

/-- Modelled from the spec: whether the busy line at electrical level `level`
reports busy under the polarity convention `is_busy_low` (busy is signaled by
a low level when `is_busy_low`, by a high level otherwise). -/
def is_busy (is_busy_low : Bool) (level : Bool) : Bool :=
  (is_busy_low && !level) || (!is_busy_low && level)

/-- Modelled from the spec: `wait_until_ready` polls the busy line in a tight
loop until it no longer reports the busy level — a blocking spin with no
timeout.  The line is modelled as the sequence of levels successive polls
would observe; the result is `some n` when poll `n` (0-indexed) is the first
to report not-busy, and `none` when every observed level stays busy, in which
case the spin does not terminate within the observations. -/
def wait_until_idle_polls (is_busy_low : Bool) : List Bool → Option Nat
  | [] => none
  | level :: rest =>
    if is_busy is_busy_low level then
      Option.map Nat.succ (wait_until_idle_polls is_busy_low rest)
    else
      some 0

/-! ## Generic lemmas about `exec` -/

theorem exec_nil {ε : Type} (failAt : Option Nat) (e : ε) :
    exec failAt e [] = ([], Except.ok ()) := rfl

/-- On a healthy bus every sequence runs to completion, emitting exactly its
transactions and succeeding. -/
theorem exec_none {ε : Type} (e : ε) (prog : List Event) :
    exec none e prog = (prog, Except.ok ()) := by
  induction prog with
  | nil => rfl
  | cons ev rest ih =>
    by_cases h : ev.isBusWrite = true <;>
      simp [exec, h, consFst, ih]

/-- A failure scheduled past the end of the sequence never triggers. -/
theorem exec_some_ge {ε : Type} (e : ε) (prog : List Event) (k : Nat)
    (hk : countWrites prog ≤ k) :
    exec (some k) e prog = (prog, Except.ok ()) := by
  induction prog generalizing k with
  | nil => rfl
  | cons ev rest ih =>
    by_cases h : ev.isBusWrite = true
    · have hc : countWrites (ev :: rest) = countWrites rest + 1 := by
        simp [countWrites, h]
      rw [hc] at hk
      match k with
      | 0 => omega
      | Nat.succ k =>
        have : countWrites rest ≤ k := by omega
        simp [exec, h, consFst, ih k this]
    · have hc : countWrites (ev :: rest) = countWrites rest := by
        simp [countWrites, h]
      rw [hc] at hk
      simp [exec, h, consFst, ih k hk]

/-- If a run succeeded, the scheduled failure (if any) lay past the end. -/
theorem countWrites_le_of_exec_ok {ε : Type} (e : ε) (prog : List Event) (k : Nat)
    (hok : (exec (some k) e prog).2 = Except.ok ()) :
    countWrites prog ≤ k := by
  induction prog generalizing k with
  | nil => simp [countWrites]
  | cons ev rest ih =>
    by_cases h : ev.isBusWrite = true
    · have hc : countWrites (ev :: rest) = countWrites rest + 1 := by
        simp [countWrites, h]
      rw [hc]
      match k with
      | 0 => simp [exec, h] at hok
      | Nat.succ k =>
        simp only [exec, h, if_pos, consFst] at hok
        have := ih k hok
        omega
    · have hc : countWrites (ev :: rest) = countWrites rest := by
        simp [countWrites, h]
      rw [hc]
      simp only [exec, h] at hok
      exact ih k hok

/-- Every successful run emits exactly the full transaction sequence. -/
theorem exec_ok_trace {ε : Type} (failAt : Option Nat) (e : ε) (prog : List Event)
    (hok : (exec failAt e prog).2 = Except.ok ()) :
    exec failAt e prog = (prog, Except.ok ()) := by
  match failAt with
  | none => exact exec_none e prog
  | some k => exact exec_some_ge e prog k (countWrites_le_of_exec_ok e prog k hok)

/-- A failure scheduled inside the sequence stops the run right after the
failing write and surfaces the injected error unchanged. -/
theorem exec_some_lt {ε : Type} (e : ε) (prog : List Event) (k : Nat)
    (hk : k < countWrites prog) :
    exec (some k) e prog = (writeTrunc (k + 1) prog, Except.error e) := by
  induction prog generalizing k with
  | nil => simp [countWrites] at hk
  | cons ev rest ih =>
    by_cases h : ev.isBusWrite = true
    · match k with
      | 0 => simp [exec, h, writeTrunc]
      | Nat.succ k =>
        have hc : countWrites (ev :: rest) = countWrites rest + 1 := by
          simp [countWrites, h]
        rw [hc] at hk
        have hk' : k < countWrites rest := by omega
        simp [exec, h, consFst, ih k hk', writeTrunc]
    · have hc : countWrites (ev :: rest) = countWrites rest := by
        simp [countWrites, h]
      rw [hc] at hk
      simp [exec, h, consFst, ih k hk, writeTrunc]

/-- The truncated sequence is an initial segment of the full one. -/
theorem writeTrunc_append (n : Nat) (prog : List Event) :
    ∃ rest, prog = writeTrunc n prog ++ rest := by
  induction prog generalizing n with
  | nil => exact ⟨[], rfl⟩
  | cons ev rest ih =>
    by_cases h : ev.isBusWrite = true
    · match n with
      | 0 => exact ⟨ev :: rest, by simp [writeTrunc]⟩
      | 1 => exact ⟨rest, by simp [writeTrunc, h]⟩
      | Nat.succ (Nat.succ k) =>
        obtain ⟨tail, htail⟩ := ih (Nat.succ k)
        exact ⟨tail, by simp [writeTrunc, h]; exact htail⟩
    · match n with
      | 0 => exact ⟨ev :: rest, by simp [writeTrunc]⟩
      | Nat.succ k =>
        obtain ⟨tail, htail⟩ := ih (Nat.succ k)
        exact ⟨tail, by simp [writeTrunc, h]; exact htail⟩

/-- The truncated sequence contains exactly its `n` bus writes, the failing
one last — no transaction after the failing one is attempted. -/
theorem countWrites_writeTrunc (n : Nat) (prog : List Event)
    (hn : n ≤ countWrites prog) :
    countWrites (writeTrunc n prog) = n := by
  induction prog generalizing n with
  | nil =>
    simp [countWrites] at hn
    simp [writeTrunc, countWrites, hn]
  | cons ev rest ih =>
    by_cases h : ev.isBusWrite = true
    · have hc : countWrites (ev :: rest) = countWrites rest + 1 := by
        simp [countWrites, h]
      rw [hc] at hn
      match n with
      | 0 => simp [writeTrunc, countWrites]
      | 1 => simp [writeTrunc, h, countWrites]
      | Nat.succ (Nat.succ k) =>
        have : Nat.succ k ≤ countWrites rest := by omega
        have hrec := ih (Nat.succ k) this
        simp [writeTrunc, h, countWrites] at hrec ⊢
        omega
    · have hc : countWrites (ev :: rest) = countWrites rest := by
        simp [countWrites, h]
      rw [hc] at hn
      match n with
      | 0 => simp [writeTrunc, countWrites]
      | Nat.succ k =>
        have hrec := ih (Nat.succ k) hn
        simp [writeTrunc, h, countWrites] at hrec ⊢
        exact hrec

/-! ## The transaction sequences the specification prescribes

These lists are transcribed from the specification's wording (not from the
source); the claim theorems compare the driver's emitted traces against
them. -/

/-- The initialization sequence as the specification describes it. -/
def specInitTrace : List Event :=
  [Event.resetEv 2,
   Event.cmdEv Command.PANEL_SETTING, Event.dataEv [0xEF, 0x08],
   Event.cmdEv Command.POWER_SETTING, Event.dataEv [0x37, 0x00, 0x23, 0x23],
   Event.cmdEv Command.POWER_OFF_SEQUENCE_SETTING, Event.dataEv [0x00],
   Event.cmdEv Command.BOOSTER_SOFT_START, Event.dataEv [0xC7, 0xC7, 0x1D],
   Event.cmdEv Command.PLL_CONTROL, Event.dataEv [0x3C],
   Event.cmdEv Command.TEMPERATURE_SENSOR_COMMAND, Event.dataEv [0x00],
   Event.cmdEv Command.VCOM_AND_DATA_INTERVAL_SETTING, Event.dataEv [0x37],
   Event.cmdEv Command.TCON_SETTING, Event.dataEv [0x22],
   Event.cmdEv Command.TCON_RESOLUTION, Event.dataEv [0x02], Event.dataEv [0x58],
   Event.dataEv [0x01], Event.dataEv [0xC0],
   Event.cmdEv Command.FLASH_MODE, Event.dataEv [0xAA],
   Event.delayEv 100,
   Event.cmdEv Command.VCOM_AND_DATA_INTERVAL_SETTING, Event.dataEv [0x37]]

/-- The display-refresh sequence as the specification describes it. -/
def specDisplayFrameTrace : List Event :=
  [Event.waitEv true, Event.cmdEv Command.POWER_ON,
   Event.waitEv true, Event.cmdEv Command.DISPLAY_REFRESH,
   Event.waitEv true, Event.cmdEv Command.POWER_OFF,
   Event.waitEv false]

/-- The frame-upload sequence as the specification describes it, for an
arbitrary caller buffer. -/
def specUpdateFrameTrace (buffer : List Nat) : List Event :=
  [Event.waitEv true,
   Event.cmdEv Command.TCON_RESOLUTION, Event.dataEv [0x02], Event.dataEv [0x58],
   Event.dataEv [0x01], Event.dataEv [0xC0],
   Event.cmdEv Command.DATA_START_TRANSMISSION_1, Event.dataEv buffer]

/-- The clear-frame sequence as the specification describes it, for background
color `c`: a uniform fill with the transport packing of `(c, c)` repeated
`600 * 448 / 2 = 134400` times, followed by the display-refresh sequence. -/
def specClearFrameTrace (c : OctColor) : List Event :=
  [Event.waitEv true,
   Event.cmdEv Command.TCON_RESOLUTION, Event.dataEv [0x02], Event.dataEv [0x58],
   Event.dataEv [0x01], Event.dataEv [0xC0],
   Event.cmdEv Command.DATA_START_TRANSMISSION_1,
   Event.repeatEv (OctColor.colors_byte c c) 134400]
    ++ specDisplayFrameTrace

/-! ## Claim theorems -/

/-- C1: every successful `init` (also run by the constructor `new`) emits
exactly the documented sequence — hardware reset, the eight fixed
configuration command/data pairs, resolution, flash mode, a 100 ms delay, and
the second VCOM-and-data-interval pair — with the VCOM-and-data-interval
command emitted exactly twice and nothing else emitted. -/
theorem init_emits_exact_sequence {ε : Type} (epd : EPD) (failAt : Option Nat) (e : ε)
    (hok : (exec failAt e (init epd)).2 = Except.ok ()) :
    (exec failAt e (init epd)).1 = specInitTrace
    ∧ List.countP
        (fun ev => decide (ev = Event.cmdEv Command.VCOM_AND_DATA_INTERVAL_SETTING))
        (exec failAt e (init epd)).1 = 2 := by
  have h := exec_ok_trace failAt e (init epd) hok
  rw [h]
  exact ⟨rfl, rfl⟩

theorem init_emits_exact_sequence_witness :
    (exec none (0 : Nat) (init { color := OctColor.White })).2 = Except.ok ()
    ∧ ((exec none (0 : Nat) (init { color := OctColor.White })).1 = specInitTrace
       ∧ List.countP
           (fun ev => decide (ev = Event.cmdEv Command.VCOM_AND_DATA_INTERVAL_SETTING))
           (exec none (0 : Nat) (init { color := OctColor.White })).1 = 2) :=
  ⟨rfl, init_emits_exact_sequence { color := OctColor.White } none 0 rfl⟩

/-- C2: every successful `display_frame` emits exactly busy-wait, power-on,
busy-wait, display-refresh, busy-wait, power-off, and a final busy-wait of
the opposite polarity: exactly 4 busy-waits, the first three with the
`wait_busy_high` polarity and the last with the complementary one. -/
theorem display_frame_emits_exact_sequence {ε : Type} (epd : EPD)
    (failAt : Option Nat) (e : ε)
    (hok : (exec failAt e (display_frame epd)).2 = Except.ok ()) :
    (exec failAt e (display_frame epd)).1 = specDisplayFrameTrace
    ∧ List.filter Event.isWait (exec failAt e (display_frame epd)).1
        = [Event.waitEv true, Event.waitEv true, Event.waitEv true, Event.waitEv false]
    ∧ List.countP Event.isWait (exec failAt e (display_frame epd)).1 = 4 := by
  have h := exec_ok_trace failAt e (display_frame epd) hok
  rw [h]
  exact ⟨rfl, rfl, rfl⟩

theorem display_frame_emits_exact_sequence_witness :
    (exec none (0 : Nat) (display_frame { color := OctColor.White })).2 = Except.ok ()
    ∧ ((exec none (0 : Nat) (display_frame { color := OctColor.White })).1
         = specDisplayFrameTrace
       ∧ List.filter Event.isWait
           (exec none (0 : Nat) (display_frame { color := OctColor.White })).1
           = [Event.waitEv true, Event.waitEv true, Event.waitEv true, Event.waitEv false]
       ∧ List.countP Event.isWait
           (exec none (0 : Nat) (display_frame { color := OctColor.White })).1 = 4) :=
  ⟨rfl, display_frame_emits_exact_sequence { color := OctColor.White } none 0 rfl⟩

/-- C4: `wake_up` emits exactly the constructor's initialization sequence at
every driver state and bus state, and two consecutive wakes emit two complete
identical initialization sequences — no shortcut path. -/
theorem wake_up_reruns_full_init {ε : Type} (epd : EPD) (failAt : Option Nat) (e : ε) :
    wake_up epd = init epd
    ∧ exec failAt e (wake_up epd) = exec failAt e (init epd)
    ∧ (exec none e (wake_up epd ++ wake_up epd)).1
        = (exec none e (init epd)).1 ++ (exec none e (init epd)).1 := by
  refine ⟨rfl, rfl, ?_⟩
  simp [exec_none, wake_up]

/-- C7: every successful `sleep` emits exactly the deep-sleep command followed
by the single data byte `0xA5`, with no busy-wait and nothing else. -/
theorem sleep_single_command_data_pair {ε : Type} (epd : EPD)
    (failAt : Option Nat) (e : ε)
    (hok : (exec failAt e (sleep epd)).2 = Except.ok ()) :
    (exec failAt e (sleep epd)).1
      = [Event.cmdEv Command.DEEP_SLEEP, Event.dataEv [0xA5]]
    ∧ List.countP Event.isWait (exec failAt e (sleep epd)).1 = 0 := by
  have h := exec_ok_trace failAt e (sleep epd) hok
  rw [h]
  exact ⟨rfl, rfl⟩

theorem sleep_single_command_data_pair_witness :
    (exec none (0 : Nat) (sleep { color := OctColor.Red })).2 = Except.ok ()
    ∧ ((exec none (0 : Nat) (sleep { color := OctColor.Red })).1
         = [Event.cmdEv Command.DEEP_SLEEP, Event.dataEv [0xA5]]
       ∧ List.countP Event.isWait
           (exec none (0 : Nat) (sleep { color := OctColor.Red })).1 = 0) :=
  ⟨rfl, sleep_single_command_data_pair { color := OctColor.Red } none 0 rfl⟩

/-- C3: after `set_background_color c`, every successful `clear_frame` emits a
busy-wait, the resolution command, the data-start-transmission command, then a
fill whose byte stream is the transport packing of `(c, c)` repeated exactly
`WIDTH * HEIGHT / 2 = 134400` times, followed by the full display-frame
sequence. -/
theorem clear_frame_fills_background {ε : Type} (epd : EPD) (c : OctColor)
    (failAt : Option Nat) (e : ε)
    (hok : (exec failAt e (clear_frame (set_background_color epd c))).2 = Except.ok ()) :
    (exec failAt e (clear_frame (set_background_color epd c))).1 = specClearFrameTrace c
    ∧ WIDTH * HEIGHT / 2 = 134400
    ∧ Event.dataBytes (Event.repeatEv (OctColor.colors_byte c c) (WIDTH * HEIGHT / 2))
        = List.replicate 134400 (OctColor.colors_byte c c) := by
  have h := exec_ok_trace failAt e (clear_frame (set_background_color epd c)) hok
  rw [h]
  exact ⟨rfl, rfl, rfl⟩

theorem clear_frame_fills_background_witness :
    (exec none (0 : Nat)
        (clear_frame (set_background_color { color := OctColor.White } OctColor.Blue))).2
      = Except.ok ()
    ∧ ((exec none (0 : Nat)
          (clear_frame (set_background_color { color := OctColor.White } OctColor.Blue))).1
        = specClearFrameTrace OctColor.Blue
       ∧ WIDTH * HEIGHT / 2 = 134400
       ∧ Event.dataBytes
           (Event.repeatEv (OctColor.colors_byte OctColor.Blue OctColor.Blue)
             (WIDTH * HEIGHT / 2))
         = List.replicate 134400 (OctColor.colors_byte OctColor.Blue OctColor.Blue)) :=
  ⟨rfl, clear_frame_fills_background { color := OctColor.White } OctColor.Blue none 0 rfl⟩

/-- C5: for every multi-step operation and every bus write at which the bus
fails, the run emits exactly the events up to and including the failing write
(no transaction after it is attempted, the earlier ones are not rolled back)
and surfaces the injected error unchanged. -/
theorem ops_abort_at_first_failure {ε : Type} (epd : EPD) (buffer : List Nat)
    (prog : List Event)
    (_hmem : prog ∈ [init epd, update_frame epd buffer, display_frame epd,
                    update_and_display_frame epd buffer, clear_frame epd, sleep epd])
    (k : Nat) (e : ε) (hk : k < countWrites prog) :
    exec (some k) e prog = (writeTrunc (k + 1) prog, Except.error e)
    ∧ countWrites (writeTrunc (k + 1) prog) = k + 1
    ∧ ∃ rest, prog = writeTrunc (k + 1) prog ++ rest :=
  ⟨exec_some_lt e prog k hk,
   countWrites_writeTrunc (k + 1) prog (by omega),
   writeTrunc_append (k + 1) prog⟩

theorem ops_abort_at_first_failure_witness :
    sleep { color := OctColor.White }
        ∈ [init { color := OctColor.White },
           update_frame { color := OctColor.White } [],
           display_frame { color := OctColor.White },
           update_and_display_frame { color := OctColor.White } [],
           clear_frame { color := OctColor.White },
           sleep { color := OctColor.White }]
    ∧ 0 < countWrites (sleep { color := OctColor.White })
    ∧ (exec (some 0) (7 : Nat) (sleep { color := OctColor.White })
         = (writeTrunc 1 (sleep { color := OctColor.White }), Except.error 7)
       ∧ countWrites (writeTrunc 1 (sleep { color := OctColor.White })) = 1
       ∧ ∃ rest, sleep { color := OctColor.White }
           = writeTrunc 1 (sleep { color := OctColor.White }) ++ rest) :=
  ⟨by decide, by decide,
   ops_abort_at_first_failure { color := OctColor.White } [] _ (by decide) 0 7 (by decide)⟩

/-- C6: for every byte buffer, valid length or not, every successful
`update_frame` emits exactly a busy-wait, the resolution command with the four
bytes `0x02 0x58 0x01 0xC0` (600 and 448, most-significant byte first), then
the data-start-transmission command followed by the buffer's bytes exactly as
supplied; nothing is read back and no length validation is performed. -/
theorem update_frame_streams_buffer {ε : Type} (epd : EPD) (buffer : List Nat)
    (failAt : Option Nat) (e : ε)
    (hok : (exec failAt e (update_frame epd buffer)).2 = Except.ok ()) :
    (exec failAt e (update_frame epd buffer)).1 = specUpdateFrameTrace buffer := by
  have h := exec_ok_trace failAt e (update_frame epd buffer) hok
  rw [h]
  rfl

theorem update_frame_streams_buffer_witness :
    (exec none (0 : Nat) (update_frame { color := OctColor.White } [0xAB, 0xCD])).2
      = Except.ok ()
    ∧ (exec none (0 : Nat) (update_frame { color := OctColor.White } [0xAB, 0xCD])).1
      = specUpdateFrameTrace [0xAB, 0xCD] :=
  ⟨rfl, update_frame_streams_buffer { color := OctColor.White } [0xAB, 0xCD] none 0 rfl⟩

/-- C8: the busy-wait primitive is an unbounded spin: it terminates exactly
when some polled level reports not-busy, and no operation ever returns a
timeout error — the only result besides success is the propagated bus-write
error. -/
theorem busy_wait_unbounded_spin {ε : Type} (p : Bool) (ls : List Bool) (e : ε)
    (prog : List Event) (failAt : Option Nat) :
    ((wait_until_idle_polls p ls).isSome = true
      ↔ ∃ level ∈ ls, is_busy p level = false)
    ∧ ((exec failAt e prog).2 = Except.ok ()
       ∨ (exec failAt e prog).2 = Except.error e) := by
  constructor
  · induction ls with
    | nil => simp [wait_until_idle_polls]
    | cons level rest ih =>
      by_cases h : is_busy p level = true
      · simp [wait_until_idle_polls, h, ih]
      · simp [wait_until_idle_polls, h]
  · induction prog generalizing failAt with
    | nil => exact Or.inl rfl
    | cons ev rest ih =>
      by_cases h : ev.isBusWrite = true
      · match failAt with
        | some 0 => exact Or.inr (by simp [exec, h])
        | some (Nat.succ k) => simpa [exec, h, consFst] using ih (some k)
        | none => simpa [exec, h, consFst] using ih none
      · simpa [exec, h, consFst] using ih failAt

/-- C9: `update_partial_frame` and `set_lut` signal "not implemented"
unconditionally: they never complete with a transaction sequence and their
outcome is independent of the arguments and the driver state. -/
theorem unsupported_ops_signal_unconditionally (epd epd' : EPD)
    (buffer buffer' : List Nat) (x y w h x' y' w' h' : Nat)
    (r r' : Option RefreshLUT) :
    update_partial_frame epd buffer x y w h = OpResult.notImplemented
    ∧ set_lut epd r = OpResult.notImplemented
    ∧ update_partial_frame epd buffer x y w h
        = update_partial_frame epd' buffer' x' y' w' h'
    ∧ set_lut epd r = set_lut epd' r'
    ∧ (∀ events, update_partial_frame epd buffer x y w h ≠ OpResult.completes events)
    ∧ (∀ events, set_lut epd r ≠ OpResult.completes events) :=
  ⟨rfl, rfl, rfl, rfl, fun _ hc => OpResult.noConfusion hc, fun _ hc => OpResult.noConfusion hc⟩

/-- C10: the constructor returns an instance whose background color is White
(the default background constant), so `background_color` reads White before
any `set_background_color`, and a `clear_frame` on that instance fills the
panel with the transport packing of `(White, White)`. -/
theorem new_initializes_background_white :
    new.1.color = OctColor.White
    ∧ background_color new.1 = DEFAULT_BACKGROUND_COLOR
    ∧ DEFAULT_BACKGROUND_COLOR = OctColor.White
    ∧ clear_frame new.1 = specClearFrameTrace OctColor.White :=
  ⟨rfl, rfl, rfl, rfl⟩

end EPD5in65f
